import Mathlib

/-!
# Verification of the department health/water aggregation pipeline

Shallow embedding of `src/main.py`: the identifier normalizer
(`normalize_dept`), the water-quality reader (`read_water_file`), the
health-statistics reader (`read_effectifs_csv`), the mortality reader
(`read_death_data`) and the aggregation loop of `main`.

Python strings are modelled as Lean `String`/`List Char`; Python `float`
arithmetic is modelled over `ℚ` (the values manipulated here are small
decimals, and `round` is modelled as exact half-to-even rounding on `ℚ`);
Python `dict`/`defaultdict` objects are modelled as association lists in
insertion order, with the defaultdict materialise-on-access semantics.
-/

namespace Main

/-- Whitespace characters stripped by Python `str.strip()`: exactly the
code points on which `str.isspace()` holds — U+0009-U+000D, U+001C-U+0020,
U+0085, U+00A0, U+1680, U+2000-U+200A, U+2028, U+2029, U+202F, U+205F and
U+3000. -/
def pyIsSpace (c : Char) : Bool :=
  ('\x09' ≤ c && c ≤ '\x0d') || ('\x1c' ≤ c && c ≤ '\x20') ||
  c = '\x85' || c = '\xa0' || c = '\u1680' ||
  ('\u2000' ≤ c && c ≤ '\u200a') || c = '\u2028' || c = '\u2029' ||
  c = '\u202f' || c = '\u205f' || c = '\u3000'

/-- Python `str.strip()` on a character list: drop whitespace from both ends. -/
def pyStripL (l : List Char) : List Char :=
  ((l.dropWhile pyIsSpace).reverse.dropWhile pyIsSpace).reverse

/-- Python `str.strip()` on a `String`. -/
def pyStrip (s : String) : String := String.mk (pyStripL s.toList)

/-- Python `str.lower()` on one character: ASCII letters plus the Latin-1
uppercase range (covers the accented letters appearing in this data). -/
def pyLowerChar (c : Char) : Char :=
  if ('A' ≤ c && c ≤ 'Z') || (('À' ≤ c && c ≤ 'Þ') && c ≠ '×') then
    Char.ofNat (c.toNat + 32)
  else c

/-- Python `str.lower()` on a character list. -/
def pyLowerL (l : List Char) : List Char := l.map pyLowerChar

/-- Removal of every double-quote character, the replace call of line 23. -/
def removeQuotes (l : List Char) : List Char := l.filter (fun c => c ≠ '"')

/-- The branch chain of `normalize_dept` (lines 24-28), applied to the
already stripped and de-quoted character list `c`. -/
def normCore (c : List Char) : String :=
  if c = [] ∨ pyLowerL c = "total".toList then "INCONNU"
  else if c = "99".toList ∨ c = "999".toList then "999"
  else if c.length = 3 ∧ c.headD ' ' = '0' then String.mk (c.drop 1)
  else if c.length = 1 ∧ (c.headD ' ').isDigit then String.mk ('0' :: c)
  else String.mk c

/-- Function `normalize_dept` from `src/main.py` lines 22-28:
strip whitespace, drop double quotes, then the branch chain. -/
def normalize_dept (code : String) : String :=
  normCore (removeQuotes (pyStripL code.toList))

/-- Substring containment, the Python membership test on character lists. -/
def isSubL : List Char → List Char → Bool
  | pat, [] => pat.isEmpty
  | pat, c :: t => pat.isPrefixOf (c :: t) || isSubL pat t

/-- The Python membership test `pat in s` on strings. -/
def strContains (pat s : String) : Bool := isSubL pat.toList s.toList

/-- Association-list lookup (first binding wins); models `dict.get`
returning `None` when the key is absent. -/
def lookupA {α : Type} (m : List (String × α)) (k : String) : Option α :=
  match m with
  | [] => none
  | (k2, v) :: t => if k2 = k then some v else lookupA t k

/-! ## Water-quality reader (`read_water_file`, lines 32-51) -/

/-- One CSV row as seen by `read_water_file`: `row.get` yields `none`
when the column is absent from the row. -/
structure WaterRow where
  cddept : Option String
  plvconformitebacterio : Option String
  plvconformitechimique : Option String
  plvconformitereferencebact : Option String
  plvconformitereferencechim : Option String

/-- The `cols` list built at lines 39-44. -/
def waterRowCols (r : WaterRow) : List (Option String) :=
  [r.plvconformitebacterio, r.plvconformitechimique,
   r.plvconformitereferencebact, r.plvconformitereferencechim]

/-- List `valid_cols` of line 46: keep flags that are present and not `"S"`. -/
def validCols (cols : List (Option String)) : List String :=
  (cols.filterMap id).filter (fun c => c ≠ "S")

/-- Lines 46-48: the compliance percentage of the row, `none` when every flag
is excluded (the row is skipped). -/
def rowCompliance (cols : List (Option String)) : Option ℚ :=
  let valid := validCols cols
  if valid = [] then none
  else some (((valid.count "C" : ℚ) / valid.length) * 100)

/-- Behaviour of `water_map[dept].append(val)` on a defaultdict(list), as an
association list in insertion order: first access materialises the key. -/
def appendSample (m : List (String × List ℚ)) (d : String) (v : ℚ) :
    List (String × List ℚ) :=
  match m with
  | [] => [(d, [v])]
  | (k, vs) :: t =>
      if k = d then (k, vs ++ [v]) :: t else (k, vs) :: appendSample t d v

/-- Processing of one row of the water file (loop body, lines 37-49). -/
def water_step (m : List (String × List ℚ)) (r : WaterRow) :
    List (String × List ℚ) :=
  let dept := normalize_dept (r.cddept.getD "")
  match rowCompliance (waterRowCols r) with
  | none => m
  | some v => appendSample m dept v

/-- Function `read_water_file` on an in-memory list of rows: accumulate the
per-department sample sequences, then collapse to the mean (line 51). -/
def read_water_file (rows : List WaterRow) : List (String × ℚ) :=
  (rows.foldl water_step []).map (fun p => (p.1, p.2.sum / (p.2.length : ℚ)))

/-! ## Health-statistics reader (`read_effectifs_csv`, lines 53-92) -/

/-- One semicolon-separated CSV row as seen by `read_effectifs_csv`. -/
structure EffRow where
  annee : Option String
  libelle_sexe : Option String
  libelle_classe_age : Option String
  dept : Option String
  patho_niv1 : Option String
  Ntop : Option String

/-- The four per-department accumulators
`{"pop": 0, "cancer": 0, "rein": 0, "foie": 0}`.  The fields are `ℤ`
because `int(float(Ntop))` can produce a negative value. -/
structure HealthStats where
  pop : ℤ
  cancer : ℤ
  rein : ℤ
  foie : ℤ
deriving DecidableEq

/-- The zero-initialised accumulator of the defaultdict (line 55). -/
def zeroStats : HealthStats := ⟨0, 0, 0, 0⟩

/-- Update of `stats_map[dept]` on the defaultdict: mutate the existing
binding, or materialise the key with the default and mutate that. -/
def updAssoc (m : List (String × HealthStats)) (d : String)
    (f : HealthStats → HealthStats) : List (String × HealthStats) :=
  match m with
  | [] => [(d, f zeroStats)]
  | (k, v) :: t =>
      if k = d then (k, f v) :: t else (k, v) :: updAssoc t d f

/-- Digit-list value, most significant first. -/
def digitsToNat (l : List Char) : ℕ :=
  l.foldl (fun a c => a * 10 + (c.toNat - 48)) 0

/-- Unsigned decimal `digits [. digits]` with at least one digit, as an exact
rational. -/
def parseUnsignedDec (l : List Char) : Option ℚ :=
  let ip := l.takeWhile Char.isDigit
  match l.dropWhile Char.isDigit with
  | [] => if ip = [] then none else some (digitsToNat ip : ℚ)
  | '.' :: fp =>
      if fp.all Char.isDigit && !(ip = [] && fp = []) then
        some ((digitsToNat ip : ℚ) + (digitsToNat fp : ℚ) / 10 ^ fp.length)
      else none
  | _ => none

/-- Signed decimal exponent `[+-]? digits`. -/
def parseExpDigits (l : List Char) : Option ℤ :=
  let (sgn, l2) :=
    match l with
    | '-' :: t => ((-1 : ℤ), t)
    | '+' :: t => ((1 : ℤ), t)
    | t => ((1 : ℤ), t)
  if l2 ≠ [] && l2.all Char.isDigit then some (sgn * digitsToNat l2) else none

/-- The Python float constructor on the plain decimal forms
`[ws] [+-] digits [. digits] [eE [+-] digits] [ws]`; anything else
(including `inf`/`nan`, whose later `int()` also raises) is `none`. -/
def pyParseFloat (s : String) : Option ℚ :=
  let l := pyStripL s.toList
  let (sgn, l2) :=
    match l with
    | '-' :: t => ((-1 : ℚ), t)
    | '+' :: t => ((1 : ℚ), t)
    | t => ((1 : ℚ), t)
  let mant := l2.takeWhile (fun c => c ≠ 'e' && c ≠ 'E')
  match l2.dropWhile (fun c => c ≠ 'e' && c ≠ 'E') with
  | [] => (parseUnsignedDec mant).map (fun q => sgn * q)
  | _ :: etail =>
      match parseUnsignedDec mant, parseExpDigits etail with
      | some m, some e => some (sgn * m * (10 : ℚ) ^ e)
      | _, _ => none

/-- The Python int conversion of a float: truncation toward zero. -/
def pyTrunc (q : ℚ) : ℤ := if 0 ≤ q then ⌊q⌋ else -⌊-q⌋

/-- Lines 76-78: int-of-float applied to the Ntop field with the bare `except`
turning any parse failure into 0.  An absent field gives the default `0`. -/
def rowCount (v : Option String) : ℤ :=
  match v with
  | none => 0
  | some s =>
      match pyParseFloat s with
      | some q => pyTrunc q
      | none => 0

/-- Processing of one row of the health file (loop body, lines 60-88):
the three inclusion filters, the nationwide-aggregate exclusion, then the
priority-ordered category chain. -/
def eff_step (m : List (String × HealthStats)) (r : EffRow) :
    List (String × HealthStats) :=
  if !strContains "2023" (r.annee.getD "") then m
  else if !strContains "tous sexes"
      (String.mk (pyLowerL (r.libelle_sexe.getD "").toList)) then m
  else if !strContains "tous âges"
      (String.mk (pyLowerL (r.libelle_classe_age.getD "").toList)) then m
  else if strContains "tous départements"
      (String.mk (pyLowerL (r.dept.getD "").toList)) then m
  else if strContains "Total consommants tous régimes"
      (r.patho_niv1.getD "") then
    updAssoc m (normalize_dept (r.dept.getD ""))
      (fun s => { s with pop := s.pop + rowCount r.Ntop })
  else if strContains "Cancers" (r.patho_niv1.getD "") then
    updAssoc m (normalize_dept (r.dept.getD ""))
      (fun s => { s with cancer := s.cancer + rowCount r.Ntop })
  else if strContains "Insuffisance rénale chronique terminale"
      (r.patho_niv1.getD "") then
    updAssoc m (normalize_dept (r.dept.getD ""))
      (fun s => { s with rein := s.rein + rowCount r.Ntop })
  else if strContains "Maladies du foie ou du pancréas"
      (r.patho_niv1.getD "") then
    updAssoc m (normalize_dept (r.dept.getD ""))
      (fun s => { s with foie := s.foie + rowCount r.Ntop })
  else m

/-- Function `read_effectifs_csv` on an in-memory list of rows. -/
def read_effectifs_csv (rows : List EffRow) : List (String × HealthStats) :=
  rows.foldl eff_step []

/-! ## Mortality reader (`read_death_data`, lines 94-106) -/

/-- Lines 100-103: extract `line[162:167]`, strip it, and derive the raw
department token. -/
def rawDeptOfLine (line : String) : String :=
  let code_com := pyStrip (String.mk ((line.toList.drop 162).take 5))
  if code_com.startsWith "97" then String.mk (code_com.toList.take 3)
  else if code_com.startsWith "99" then "999"
  else String.mk (code_com.toList.take 2)

/-- The normalised department a qualifying line is counted under. -/
def deptOfLine (line : String) : String := normalize_dept (rawDeptOfLine line)

/-- Processing of one line of the deaths file (loop body, lines 98-104).
The counter map is total (`defaultdict(int)`): absent keys read as 0. -/
def death_step (m : String → ℕ) (line : String) : String → ℕ :=
  if line.length < 167 then m
  else
    let d := deptOfLine line
    fun x => if x = d then m x + 1 else m x

/-- Function `read_death_data` on an in-memory list of lines. -/
def read_death_data (lines : List String) : String → ℕ :=
  lines.foldl death_step (fun _ => 0)

/-! ## Aggregation (`main`, lines 110-147) -/

/-- The Python one-argument `round` (no binary-float noise): half to even. -/
def pyRoundHalfEven (x : ℚ) : ℤ :=
  if x - ⌊x⌋ < 1 / 2 then ⌊x⌋
  else if 1 / 2 < x - ⌊x⌋ then ⌊x⌋ + 1
  else if ⌊x⌋ % 2 = 0 then ⌊x⌋ else ⌊x⌋ + 1

/-- The Python two-argument `round`: nearest multiple of `10 ^ (-n)`, ties to the
even multiple. -/
def roundTo (n : ℕ) (x : ℚ) : ℚ :=
  (pyRoundHalfEven (x * 10 ^ n) : ℚ) / 10 ^ n

/-- The pydantic `DeptSummary` model (lines 9-19). -/
structure DeptSummary where
  departement : String
  conformite_eau_moyenne : ℚ
  nombre_deces : ℕ
  population_totale : ℤ
  nb_cancers : ℤ
  nb_insuffisance_renale : ℤ
  nb_foie_pancreas : ℤ
  pourcentage_cancer : ℚ
  pourcentage_insuffisance_renale : ℚ
  pourcentage_foie_pancreas : ℚ
deriving DecidableEq

/-- Body of the aggregation loop (lines 126-146) for one department. -/
def mkSummary (water : List (String × ℚ)) (pathos : List (String × HealthStats))
    (deaths : List (String × ℕ)) (d : String) : DeptSummary :=
  let s := (lookupA pathos d).getD zeroStats
  let pop := s.pop
  let p_cancer : ℚ := if 0 < pop then (s.cancer : ℚ) / (pop : ℚ) * 100 else 0
  let p_rein : ℚ := if 0 < pop then (s.rein : ℚ) / (pop : ℚ) * 100 else 0
  let p_foie : ℚ := if 0 < pop then (s.foie : ℚ) / (pop : ℚ) * 100 else 0
  { departement := d
    conformite_eau_moyenne := roundTo 2 ((lookupA water d).getD 0)
    nombre_deces := (lookupA deaths d).getD 0
    population_totale := pop
    nb_cancers := s.cancer
    nb_insuffisance_renale := s.rein
    nb_foie_pancreas := s.foie
    pourcentage_cancer := roundTo 4 p_cancer
    pourcentage_insuffisance_renale := roundTo 4 p_rein
    pourcentage_foie_pancreas := roundTo 4 p_foie }

/-- Remove duplicate keys (the `set(...) | set(...) | set(...)` union of
line 120; only membership matters, the result is sorted afterwards). -/
def dedupKeys : List String → List String
  | [] => []
  | x :: t => if x ∈ t then dedupKeys t else x :: dedupKeys t

/-- Insert into an ascending list (`sorted`, line 123). -/
def insertSorted (x : String) : List String → List String
  | [] => [x]
  | y :: t => if x < y then x :: y :: t else y :: insertSorted x t

/-- Python `sorted(all_depts)`: ascending lexicographic order. -/
def sortKeys (l : List String) : List String := l.foldr insertSorted []

/-- The aggregation loop of `main` (lines 120-147): union of the keys,
sorted, `"INCONNU"` skipped, one summary per remaining department. -/
def aggregate (water : List (String × ℚ)) (pathos : List (String × HealthStats))
    (deaths : List (String × ℕ)) : List DeptSummary :=
  let all := dedupKeys
    (water.map Prod.fst ++ pathos.map Prod.fst ++ deaths.map Prod.fst)
  ((sortKeys all).filter (fun d => d ≠ "INCONNU")).map
    (mkSummary water pathos deaths)

/-! ## Helper lemmas about the string utilities -/

lemma dropWhile_eq_self_of {p : Char → Bool} {l : List Char}
    (h : ∀ c ∈ l, p c = false) : l.dropWhile p = l := by
  cases l with
  | nil => rfl
  | cons a t => rw [List.dropWhile_cons, h a (by simp)]; simp

lemma pyStripL_eq_self {l : List Char} (h : ∀ c ∈ l, pyIsSpace c = false) :
    pyStripL l = l := by
  unfold pyStripL
  rw [dropWhile_eq_self_of h, dropWhile_eq_self_of (by simp_all), List.reverse_reverse]

lemma removeQuotes_eq_self {l : List Char} (h : ∀ c ∈ l, c ≠ '"') :
    removeQuotes l = l := by
  unfold removeQuotes
  exact List.filter_eq_self.mpr (by simp_all)

/-- On a string with no whitespace and no double quote, `normalize_dept`
is just the branch chain. -/
lemma normalize_dept_eq_normCore {R : String}
    (h : ∀ c ∈ R.toList, pyIsSpace c = false ∧ c ≠ '"') :
    normalize_dept R = normCore R.toList := by
  unfold normalize_dept
  rw [pyStripL_eq_self (fun c hc => (h c hc).1),
    removeQuotes_eq_self (fun c hc => (h c hc).2)]

/-! ## Helper lemmas about the key-set machinery -/

lemma mem_insertSorted {y x : String} {l : List String} :
    y ∈ insertSorted x l ↔ y = x ∨ y ∈ l := by
  induction l with
  | nil => simp [insertSorted]
  | cons a t ih =>
      unfold insertSorted
      split_ifs <;> simp_all
      tauto

lemma mem_sortKeys {y : String} {l : List String} :
    y ∈ sortKeys l ↔ y ∈ l := by
  induction l with
  | nil => simp [sortKeys]
  | cons a t ih =>
      unfold sortKeys at ih ⊢
      simp [List.foldr_cons, mem_insertSorted, ih]

lemma mem_dedupKeys {y : String} {l : List String} :
    y ∈ dedupKeys l ↔ y ∈ l := by
  induction l with
  | nil => simp [dedupKeys]
  | cons a t ih =>
      unfold dedupKeys
      split_ifs with ha
      · simp_all
      · simp_all

/-- Any key appearing in one of the three input maps and different from
`"INCONNU"` contributes its summary to the aggregated output. -/
lemma mkSummary_mem_aggregate {w : List (String × ℚ)}
    {p : List (String × HealthStats)} {dth : List (String × ℕ)} {k : String}
    (hk : k ∈ w.map Prod.fst ++ p.map Prod.fst ++ dth.map Prod.fst)
    (hne : k ≠ "INCONNU") :
    mkSummary w p dth k ∈ aggregate w p dth := by
  unfold aggregate
  refine List.mem_map_of_mem _ (List.mem_filter.mpr ⟨?_, by simpa using hne⟩)
  exact mem_sortKeys.mpr (mem_dedupKeys.mpr hk)

/-! ## Helper lemmas about the accumulator maps -/

lemma lookupA_appendSample_same (m : List (String × List ℚ)) (d : String)
    (v : ℚ) :
    lookupA (appendSample m d v) d = some ((lookupA m d).getD [] ++ [v]) := by
  induction m with
  | nil => simp [appendSample, lookupA]
  | cons kv t ih =>
      obtain ⟨k, vs⟩ := kv
      unfold appendSample
      split_ifs with hk
      · subst hk; simp [lookupA]
      · simp [lookupA, hk, ih]

lemma lookupA_appendSample_ne (m : List (String × List ℚ)) (d x : String)
    (v : ℚ) (h : x ≠ d) :
    lookupA (appendSample m d v) x = lookupA m x := by
  induction m with
  | nil => simp [appendSample, lookupA, Ne.symm h]
  | cons kv t ih =>
      obtain ⟨k, vs⟩ := kv
      unfold appendSample
      split_ifs with hk
      · subst hk
        simp [lookupA, Ne.symm h]
      · unfold lookupA
        split_ifs with hx
        · rfl
        · exact ih

lemma updAssoc_forall (P : HealthStats → Prop)
    {m : List (String × HealthStats)}
    {d : String} {f : HealthStats → HealthStats}
    (hm : ∀ kv ∈ m, P kv.2) (hz : P zeroStats) (hf : ∀ s, P s → P (f s)) :
    ∀ kv ∈ updAssoc m d f, P kv.2 := by
  induction m with
  | nil =>
      intro kv hkv
      simp [updAssoc] at hkv
      subst hkv
      exact hf _ hz
  | cons kv0 t ih =>
      intro kv hkv
      obtain ⟨k, v⟩ := kv0
      unfold updAssoc at hkv
      split_ifs at hkv with hk
      · rcases List.mem_cons.mp hkv with rfl | hmem
        · exact hf _ (hm (k, v) (by simp))
        · exact hm _ (List.mem_cons_of_mem _ hmem)
      · rcases List.mem_cons.mp hkv with rfl | hmem
        · exact hm (k, v) (by simp)
        · exact ih (fun a ha => hm a (List.mem_cons_of_mem _ ha)) _ hmem

/-! ## Helper lemmas about the mortality fold -/

lemma foldl_death_step (lines : List String) (m : String → ℕ) (x : String) :
    (lines.foldl death_step m) x =
      m x + lines.countP (fun l => decide (167 ≤ l.length ∧ deptOfLine l = x)) := by
  induction lines generalizing m with
  | nil => simp
  | cons l t ih =>
      rw [List.foldl_cons, ih, List.countP_cons]
      unfold death_step
      by_cases h : l.length < 167
      · rw [if_pos h]
        have hc : decide (167 ≤ l.length ∧ deptOfLine l = x) = false := by
          simp only [decide_eq_false_iff_not]
          rintro ⟨h2, -⟩
          omega
        rw [hc]
        simp
      · rw [if_neg h]
        by_cases hd : x = deptOfLine l
        · have hc : decide (167 ≤ l.length ∧ deptOfLine l = x) = true := by
            simp only [decide_eq_true_eq]
            exact ⟨by omega, hd.symm⟩
          rw [hc]
          simp [hd]
          omega
        · have hc : decide (167 ≤ l.length ∧ deptOfLine l = x) = false := by
            simp only [decide_eq_false_iff_not]
            rintro ⟨-, h2⟩
            exact hd h2.symm
          rw [hc]
          simp [hd]

/-! ## Helper lemmas about rounding -/

lemma pyRoundHalfEven_intCast (k : ℤ) : pyRoundHalfEven (k : ℚ) = k := by
  unfold pyRoundHalfEven
  rw [Int.floor_intCast, sub_self]
  norm_num

lemma roundTo_eq_self (n : ℕ) (x : ℚ) (k : ℤ) (h : x * 10 ^ n = (k : ℚ)) :
    roundTo n x = x := by
  unfold roundTo
  rw [h, pyRoundHalfEven_intCast, ← h]
  field_simp

lemma pyRoundHalfEven_nonneg (x : ℚ) (h : 0 ≤ x) : 0 ≤ pyRoundHalfEven x := by
  have hf : (0 : ℤ) ≤ ⌊x⌋ := Int.floor_nonneg.mpr h
  unfold pyRoundHalfEven
  split_ifs <;> omega

lemma pyRoundHalfEven_le (x : ℚ) (B : ℤ) (h : x ≤ (B : ℚ)) :
    pyRoundHalfEven x ≤ B := by
  have hf : ⌊x⌋ ≤ B := by
    have := Int.floor_le_floor h
    simpa using this
  unfold pyRoundHalfEven
  split_ifs with h1 h2 h3
  · exact hf
  · -- strictly past the half point: the floor is strictly below `B`
    rcases eq_or_lt_of_le hf with rfl | hlt
    · exfalso
      have : x - (⌊x⌋ : ℚ) ≤ 0 := by
        have : x ≤ (⌊x⌋ : ℚ) := h
        linarith
      linarith
    · omega
  · exact hf
  · -- exact tie `x = ⌊x⌋ + 1/2`, so the floor is strictly below `B`
    have hx : x - (⌊x⌋ : ℚ) = 1 / 2 := le_antisymm (not_lt.mp h2) (not_lt.mp h1)
    have hlt : ⌊x⌋ < B := by
      by_contra hc
      have hef : ⌊x⌋ = B := le_antisymm hf (not_lt.mp hc)
      rw [hef] at hx
      have : x = (B : ℚ) + 1 / 2 := by linarith
      rw [this] at h
      linarith
    omega

lemma roundTo_nonneg (n : ℕ) (x : ℚ) (h : 0 ≤ x) : 0 ≤ roundTo n x := by
  unfold roundTo
  have h10 : (0 : ℚ) < 10 ^ n := by positivity
  apply div_nonneg _ (le_of_lt h10)
  exact_mod_cast pyRoundHalfEven_nonneg (x * 10 ^ n) (by positivity)

lemma roundTo_le_intCast (n : ℕ) (x : ℚ) (B : ℤ) (h : x ≤ (B : ℚ)) :
    roundTo n x ≤ (B : ℚ) := by
  unfold roundTo
  have h10 : (0 : ℚ) < 10 ^ n := by positivity
  rw [div_le_iff₀ h10]
  have hb : x * 10 ^ n ≤ ((B * 10 ^ n : ℤ) : ℚ) := by
    push_cast
    exact mul_le_mul_of_nonneg_right h (le_of_lt h10)
  have := pyRoundHalfEven_le (x * 10 ^ n) (B * 10 ^ n) hb
  calc (pyRoundHalfEven (x * 10 ^ n) : ℚ) ≤ ((B * 10 ^ n : ℤ) : ℚ) := by
        exact_mod_cast this
    _ = (B : ℚ) * 10 ^ n := by push_cast; ring

lemma roundTo_zero (n : ℕ) : roundTo n 0 = 0 :=
  roundTo_eq_self n 0 0 (by norm_num)

/-- A department absent from the water and health maps gets the all-zero
defaults and zero percentages. -/
lemma mkSummary_of_absent {w : List (String × ℚ)}
    {p : List (String × HealthStats)} {dth : List (String × ℕ)} {k : String}
    (hw : lookupA w k = none) (hp : lookupA p k = none) :
    mkSummary w p dth k =
      ⟨k, 0, (lookupA dth k).getD 0, 0, 0, 0, 0, 0, 0, 0⟩ := by
  unfold mkSummary
  rw [hw, hp]
  simp [zeroStats, roundTo_zero]

/-- A derived percentage is non-negative whenever the count is. -/
lemma pct_nonneg (cnt pop : ℤ) (h : 0 ≤ cnt) :
    0 ≤ roundTo 4 (if 0 < pop then (cnt : ℚ) / (pop : ℚ) * 100 else 0) := by
  apply roundTo_nonneg
  split_ifs with hp
  · have h1 : (0 : ℚ) ≤ (cnt : ℚ) := by exact_mod_cast h
    have h2 : (0 : ℚ) < (pop : ℚ) := by exact_mod_cast hp
    positivity
  · exact le_refl 0

/-- A derived percentage is at most 100 when `0 ≤ cnt ≤ pop`. -/
lemma pct_le_hundred (cnt pop : ℤ) (hp : 0 < pop) (h2 : cnt ≤ pop) :
    roundTo 4 (if 0 < pop then (cnt : ℚ) / (pop : ℚ) * 100 else 0) ≤ 100 := by
  rw [if_pos hp]
  refine le_trans (roundTo_le_intCast 4 _ 100 ?_) (by norm_num)
  have hpq : (0 : ℚ) < (pop : ℚ) := by exact_mod_cast hp
  have hcq : (cnt : ℚ) ≤ (pop : ℚ) := by exact_mod_cast h2
  rw [div_mul_eq_mul_div, div_le_iff₀ hpq]
  push_cast
  nlinarith

/-- List `valid_cols` distributes over list concatenation. -/
lemma validCols_append (l1 l2 : List (Option String)) :
    validCols (l1 ++ l2) = validCols l1 ++ validCols l2 := by
  simp [validCols, List.filterMap_append, List.filter_append]

/-!
## The claims

Each claim of the specification is settled by exactly one theorem below
(plus, where applicable, a concrete counterexample and a witness).
-/

/-- Claim C2, counterexample: The identifier normalizer is *not* idempotent:
`normalize_dept "099" = "99"` (leading zero dropped), but normalizing
again turns `"99"` into the sentinel `"999"`. -/
theorem C2_counterexample :
    normalize_dept (normalize_dept "099") ≠ normalize_dept "099" := by
  decide

/-- Claim C2, amended: The normalizer is idempotent on every raw string
that contains no whitespace and no double-quote character and is not
`"099"` (for such strings a second normalization cannot re-trigger the
strip/de-quote phase, and the only normalized form that is itself
re-normalized is `"99" ↦ "999"`, reached exactly from `"099"`). -/
theorem C2_idempotent_on_clean (R : String)
    (hclean : ∀ c ∈ R.toList, pyIsSpace c = false ∧ c ≠ '"')
    (h099 : R ≠ "099") :
    normalize_dept (normalize_dept R) = normalize_dept R := by
  obtain ⟨c⟩ := R
  have hc : (String.mk c).toList = c := rfl
  rw [normalize_dept_eq_normCore hclean]
  rw [hc] at hclean
  have h099l : c ≠ ['0', '9', '9'] := by
    intro h
    exact h099 (by rw [h])
  show normalize_dept (normCore c) = normCore c
  unfold normCore
  split_ifs with h1 h2 h3 h4
  · decide
  · decide
  · -- the drop-leading-zero branch: the result is a 2-character string
    obtain ⟨hlen, hhead⟩ := h3
    obtain ⟨a, t, rfl⟩ : ∃ a t, c = a :: t := by
      cases c with
      | nil => simp at hlen
      | cons a t => exact ⟨a, t, rfl⟩
    have ha : a = '0' := by simpa using hhead
    have htlen : t.length = 2 := by simpa using hlen
    have htclean : ∀ x ∈ (String.mk t).toList, pyIsSpace x = false ∧ x ≠ '"' :=
      fun x hx => hclean x (List.mem_cons_of_mem _ hx)
    simp only [List.drop_succ_cons, List.drop_zero]
    rw [normalize_dept_eq_normCore htclean]
    show normCore t = String.mk t
    unfold normCore
    rw [if_neg, if_neg, if_neg, if_neg]
    · rintro ⟨hl, -⟩
      rw [htlen] at hl
      norm_num at hl
    · rintro ⟨hl, -⟩
      rw [htlen] at hl
      norm_num at hl
    · rintro (h99 | h999)
      · exact h099l (by rw [ha, h99]; rfl)
      · have := congrArg List.length h999
        rw [htlen] at this
        simp at this
    · rintro (hnil | htot)
      · rw [hnil] at htlen
        simp at htlen
      · have := congrArg List.length htot
        simp [pyLowerL, htlen] at this
  · -- the zero-padding branch: the result is `'0'` followed by a digit
    obtain ⟨hlen, hdig⟩ := h4
    obtain ⟨a, rfl⟩ : ∃ a, c = [a] := by
      cases c with
      | nil => simp at hlen
      | cons a t =>
          cases t with
          | nil => exact ⟨a, rfl⟩
          | cons b u => simp at hlen
    have haclean : pyIsSpace a = false ∧ a ≠ '"' := hclean a (by simp)
    have hclean2 : ∀ x ∈ (String.mk ['0', a]).toList,
        pyIsSpace x = false ∧ x ≠ '"' := by
      intro x hx
      rcases List.mem_cons.mp hx with rfl | hx2
      · exact ⟨by decide, by decide⟩
      · rcases List.mem_cons.mp hx2 with rfl | hx3
        · exact haclean
        · simp at hx3
    rw [normalize_dept_eq_normCore hclean2]
    show normCore ['0', a] = String.mk ['0', a]
    unfold normCore
    rw [if_neg, if_neg, if_neg, if_neg]
    · rintro ⟨hl, -⟩
      simp at hl
    · rintro ⟨hl, -⟩
      simp at hl
    · rintro (h99 | h999)
      · have := congrArg (fun l => l.headD ' ') h99
        simp at this
      · have := congrArg List.length h999
        simp at this
    · rintro (hnil | htot)
      · simp at hnil
      · have := congrArg List.length htot
        simp [pyLowerL] at this
  · -- the fall-through branch: the input is already canonical
    have hclean3 : ∀ x ∈ (String.mk c).toList, pyIsSpace x = false ∧ x ≠ '"' :=
      hclean
    rw [normalize_dept_eq_normCore hclean3]
    show normCore c = String.mk c
    unfold normCore
    rw [if_neg h1, if_neg h2, if_neg h3, if_neg h4]

/-- Claim C2, witness: The amended idempotence at the concrete clean input
`"12"`. -/
theorem C2_idempotent_on_clean_witness :
    normalize_dept (normalize_dept "12") = normalize_dept "12" :=
  C2_idempotent_on_clean "12" (by decide) (by decide)

/-- Claim C3, counterexample: A row whose four compliance flags are
`"C","C","S","C"` has three considered flags, all equal to `"C"`, so its
compliance percentage is `100`, not `(2/3)×100`: the claim (and the spec
sentence it quotes) miscounts the `"C"` flags. -/
theorem C3_counterexample :
    rowCompliance [some "C", some "C", some "S", some "C"] = some 100 ∧
    (2 / 3 * 100 : ℚ) ≠ 100 := by
  constructor
  · simp [rowCompliance, validCols]
  · norm_num

/-- Claim C3, amended: A row with compliance flags `"C","C","S","C"` (the
`"S"` flag excluded from consideration) contributes the sample compliance
percentage `(3/3)×100 = 100` to the sequence of its department, leaving
the sequence of every other department unchanged. -/
theorem C3_water_row_contribution (m : List (String × List ℚ)) (r : WaterRow)
    (hflags : waterRowCols r = [some "C", some "C", some "S", some "C"]) :
    rowCompliance (waterRowCols r) = some 100 ∧
    lookupA (water_step m r) (normalize_dept (r.cddept.getD "")) =
      some ((lookupA m (normalize_dept (r.cddept.getD ""))).getD [] ++ [100]) ∧
    ∀ x, x ≠ normalize_dept (r.cddept.getD "") →
      lookupA (water_step m r) x = lookupA m x := by
  have hc : rowCompliance (waterRowCols r) = some 100 := by
    rw [hflags]
    simp [rowCompliance, validCols]
  refine ⟨hc, ?_, ?_⟩
  · unfold water_step
    rw [hc]
    exact lookupA_appendSample_same m _ 100
  · intro x hx
    unfold water_step
    rw [hc]
    exact lookupA_appendSample_ne m _ x 100 hx

/-- Claim C3, witness: The amended contribution at a concrete row for
department `"01"`. -/
theorem C3_water_row_contribution_witness :
    rowCompliance
      (waterRowCols ⟨some "01", some "C", some "C", some "S", some "C"⟩) =
      some 100 ∧
    lookupA
      (water_step [] ⟨some "01", some "C", some "C", some "S", some "C"⟩)
      (normalize_dept "01") = some [100] :=
  ⟨(C3_water_row_contribution []
      ⟨some "01", some "C", some "C", some "S", some "C"⟩ rfl).1,
   (C3_water_row_contribution []
      ⟨some "01", some "C", some "C", some "S", some "C"⟩ rfl).2.1⟩

/-- Claim C6, confirmed: No summary in the aggregated output ever carries
the department code `"INCONNU"`, whatever the three input mappings
contain (line 124 filters the sentinel out of the key union). -/
theorem C6_no_INCONNU (w : List (String × ℚ))
    (p : List (String × HealthStats)) (dth : List (String × ℕ)) :
    (aggregate w p dth).all (fun s => s.departement != "INCONNU") = true := by
  rw [List.all_eq_true]
  intro s hs
  unfold aggregate at hs
  rw [List.mem_map] at hs
  obtain ⟨d, hd, rfl⟩ := hs
  rw [List.mem_filter] at hd
  have hne : d ≠ "INCONNU" := by simpa using hd.2
  simpa [mkSummary] using hne

/-- Claim C8, confirmed: The mortality reader skips every line shorter
than 167 characters, and counts every other line under the department
obtained from the 5-character field `line[162:167]` (characters 163-167,
1-indexed), stripped, turned into the raw token (first 3 characters when
it starts with `"97"`, the sentinel `"999"` when it starts with `"99"`,
otherwise the first 2 characters) and normalized — each qualifying line
incrementing exactly the counter of that department by 1: the final
count of every department is the number of its qualifying lines. -/
theorem C8_death_counting (lines : List String) (x : String) :
    read_death_data lines x =
      lines.countP (fun l => decide (167 ≤ l.length ∧ deptOfLine l = x)) := by
  unfold read_death_data
  rw [foldl_death_step]
  exact Nat.zero_add _

/-- Claim C9, confirmed: The health reader parses the count field as a
float truncated to an integer (`"12.7"` gives 12); an unparseable count
(`"abc"`) contributes 0 while the row is still processed — the department
of the row is materialised in the returned map (with zero counters)
instead of the row being skipped. -/
theorem C9_count_parsing :
    rowCount (some "12.7") = 12 ∧ rowCount (some "abc") = 0 ∧
    read_effectifs_csv [⟨some "2023", some "Tous sexes", some "Tous âges",
      some "01", some "Cancers", some "abc"⟩] = [("01", ⟨0, 0, 0, 0⟩)] := by
  refine ⟨?_, by decide, by decide⟩
  simp [rowCount, pyParseFloat, pyStripL, pyIsSpace, parseUnsignedDec,
    digitsToNat, pyTrunc, String.toList, Int.floor_eq_iff]
  norm_num

/-- Claim C10, confirmed: In the water reader a present flag column whose
value is not `"S"` (for instance the empty string) is considered: it is
appended to `valid_cols` (the denominator), while an absent column or an
`"S"` flag is excluded; and a considered non-`"C"` value can only lower
the compliance percentage of the row, strictly so when the percentage was
positive. -/
theorem C10_non_S_flag_considered (cols : List (Option String)) (v : String)
    (hS : v ≠ "S") :
    validCols (cols ++ [some v]) = validCols cols ++ [v] ∧
    validCols (cols ++ [none]) = validCols cols ∧
    validCols (cols ++ [some "S"]) = validCols cols ∧
    (v ≠ "C" → ∀ q, rowCompliance cols = some q →
      ∃ q2, rowCompliance (cols ++ [some v]) = some q2 ∧
        q2 ≤ q ∧ (0 < q → q2 < q)) := by
  have h1 : validCols (cols ++ [some v]) = validCols cols ++ [v] := by
    rw [validCols_append]
    simp [validCols, hS]
  refine ⟨h1, ?_, ?_, ?_⟩
  · rw [validCols_append]
    simp [validCols]
  · rw [validCols_append]
    simp [validCols]
  · intro hC q hq
    unfold rowCompliance at hq ⊢
    by_cases hnil : validCols cols = []
    · rw [if_pos hnil] at hq
      cases hq
    · rw [if_neg hnil] at hq
      have hq2 := Option.some.inj hq
      have hlen : 0 < (validCols cols).length := List.length_pos.mpr hnil
      have hne2 : validCols (cols ++ [some v]) ≠ [] := by
        rw [h1]
        simp
      rw [if_neg hne2, h1]
      have hcount : (validCols cols ++ [v]).count "C" =
          (validCols cols).count "C" := by
        rw [List.count_append]
        simp [List.count_cons, Ne.symm hC]
      refine ⟨_, rfl, ?_, ?_⟩
      · rw [hcount, ← hq2, List.length_append]
        have hn0 : (0 : ℚ) < ((validCols cols).length : ℚ) := by
          exact_mod_cast hlen
        set c := ((validCols cols).count "C" : ℚ)
        set n := ((validCols cols).length : ℚ)
        have hc0 : 0 ≤ c := by positivity
        have hlen2 : ((validCols cols).length + 1 : ℕ) = (n + 1 : ℚ) := by
          push_cast
          ring
        rw [List.length_singleton, hlen2]
        rw [div_mul_eq_mul_div, div_mul_eq_mul_div,
          div_le_div_iff₀ (by linarith) hn0]
        nlinarith
      · intro hqpos
        rw [hcount, ← hq2, List.length_append]
        rw [← hq2] at hqpos
        have hn0 : (0 : ℚ) < ((validCols cols).length : ℚ) := by
          exact_mod_cast hlen
        set c := ((validCols cols).count "C" : ℚ)
        set n := ((validCols cols).length : ℚ)
        have hc0 : 0 < c := by
          by_contra hc
          push_neg at hc
          have hc00 : 0 ≤ c := by positivity
          have : c = 0 := le_antisymm hc hc00
          rw [this] at hqpos
          simp at hqpos
        have hlen2 : ((validCols cols).length + 1 : ℕ) = (n + 1 : ℚ) := by
          push_cast
          ring
        rw [List.length_singleton, hlen2]
        rw [div_mul_eq_mul_div, div_mul_eq_mul_div,
          div_lt_div_iff₀ (by linarith) hn0]
        nlinarith

/-- Claim C10, witness: Appending an empty-string flag to a single-`"C"`
row halves its compliance percentage: from 100 to 50. -/
theorem C10_non_S_flag_considered_witness :
    validCols [some "C", some ""] = ["C", ""] ∧
    validCols ([some "C"] ++ [none]) = ["C"] ∧
    validCols ([some "C"] ++ [some "S"]) = ["C"] ∧
    (("" : String) ≠ "C" → ∀ q, rowCompliance [some "C"] = some q →
      ∃ q2, rowCompliance ([some "C"] ++ [some ""]) = some q2 ∧
        q2 ≤ q ∧ (0 < q → q2 < q)) :=
  C10_non_S_flag_considered [some "C"] "" (by decide)

/-- Claim C5, confirmed: End-to-end aggregation of the three singleton
mappings for department `"01"`: water mean 80, health counters
`{pop 100, cancer 10, rein 5, foie 2}`, 3 deaths — the output is the
single summary with the three percentages 10%, 5% and 2%. -/
theorem C5_end_to_end :
    aggregate [("01", 80)] [("01", ⟨100, 10, 5, 2⟩)] [("01", 3)] =
      [⟨"01", 80, 3, 100, 10, 5, 2, 10, 5, 2⟩] := by
  have h80 : roundTo 2 (80 : ℚ) = 80 := roundTo_eq_self 2 80 8000 (by norm_num)
  simp [aggregate, dedupKeys, sortKeys, insertSorted, mkSummary, lookupA,
    zeroStats, DeptSummary.mk.injEq, h80]
  refine ⟨?_, ?_, ?_⟩
  · exact roundTo_eq_self 4 _ 100000 (by norm_num)
  · exact roundTo_eq_self 4 _ 50000 (by norm_num)
  · exact roundTo_eq_self 4 _ 20000 (by norm_num)

/-- Claim C7, counterexample: The sentinel `"INCONNU"` is a canonical code
(the normalizer produces it) and can be a key of the deaths mapping alone,
yet the aggregator emits *no* summary for it at all, contradicting the
universal quantification of the claim over deaths-only keys. -/
theorem C7_counterexample :
    lookupA [(("INCONNU" : String), (3 : ℕ))] "INCONNU" = some 3 ∧
    aggregate [] [] [("INCONNU", 3)] = [] := by
  constructor
  · decide
  · simp [aggregate, dedupKeys, sortKeys, insertSorted]

/-- Claim C7, amended: For every canonical code *other than `"INCONNU"`*
that is a key of the deaths mapping but absent from the water and health
mappings, the aggregator emits a summary with population 0, all disease
counts 0, water mean 0 and all three percentages exactly 0. -/
theorem C7_death_only_department (w : List (String × ℚ))
    (p : List (String × HealthStats)) (dth : List (String × ℕ)) (k : String)
    (hk : k ∈ dth.map Prod.fst) (hw : lookupA w k = none)
    (hp : lookupA p k = none) (hne : k ≠ "INCONNU") :
    ∃ s ∈ aggregate w p dth, s.departement = k ∧
      s.conformite_eau_moyenne = 0 ∧ s.population_totale = 0 ∧
      s.nb_cancers = 0 ∧ s.nb_insuffisance_renale = 0 ∧
      s.nb_foie_pancreas = 0 ∧ s.pourcentage_cancer = 0 ∧
      s.pourcentage_insuffisance_renale = 0 ∧
      s.pourcentage_foie_pancreas = 0 := by
  refine ⟨mkSummary w p dth k, mkSummary_mem_aggregate ?_ hne, ?_⟩
  · exact List.mem_append_right _ hk
  · rw [mkSummary_of_absent hw hp]
    exact ⟨rfl, rfl, rfl, rfl, rfl, rfl, rfl, rfl, rfl⟩

/-- Claim C7, witness: The amended statement at the concrete inputs
`water = {}`, `health = {}`, `deaths = {"02": 3}`. -/
theorem C7_death_only_department_witness :
    ∃ s ∈ aggregate [] [] [("02", 3)], s.departement = "02" ∧
      s.conformite_eau_moyenne = 0 ∧ s.population_totale = 0 ∧
      s.nb_cancers = 0 ∧ s.nb_insuffisance_renale = 0 ∧
      s.nb_foie_pancreas = 0 ∧ s.pourcentage_cancer = 0 ∧
      s.pourcentage_insuffisance_renale = 0 ∧
      s.pourcentage_foie_pancreas = 0 :=
  C7_death_only_department [] [] [("02", 3)] "02" (by decide) rfl rfl
    (by decide)

/-- Claim C1, counterexample: The aggregated percentages are *not*
confined to `[0,100]`: a health file whose `"01"` rows give population 1
and cancer count 10 (both produced by the reader itself) yields
`pourcentage_cancer = 1000`, and a parseable negative count (`Ntop =
"-5"`) yields `pourcentage_cancer = -500 < 0` — the code never clamps
`count/population`. -/
theorem C1_counterexample :
    read_effectifs_csv [⟨some "2023", some "Tous sexes", some "Tous âges",
      some "01", some "Total consommants tous régimes", some "1"⟩,
      ⟨some "2023", some "Tous sexes", some "Tous âges",
      some "01", some "Cancers", some "10"⟩] = [("01", ⟨1, 10, 0, 0⟩)] ∧
    aggregate [] [("01", ⟨1, 10, 0, 0⟩)] [] =
      [⟨"01", 0, 0, 1, 10, 0, 0, 1000, 0, 0⟩] ∧
    ¬ ((1000 : ℚ) ≤ 100) ∧
    read_effectifs_csv [⟨some "2023", some "Tous sexes", some "Tous âges",
      some "01", some "Total consommants tous régimes", some "1"⟩,
      ⟨some "2023", some "Tous sexes", some "Tous âges",
      some "01", some "Cancers", some "-5"⟩] = [("01", ⟨1, -5, 0, 0⟩)] ∧
    aggregate [] [("01", ⟨1, -5, 0, 0⟩)] [] =
      [⟨"01", 0, 0, 1, -5, 0, 0, -500, 0, 0⟩] ∧
    ((-500 : ℚ) < 0) := by
  have h1 : rowCount (some "1") = 1 := by
    simp [rowCount, pyParseFloat, pyStripL, pyIsSpace, parseUnsignedDec,
      digitsToNat, pyTrunc, String.toList, Int.floor_eq_iff]
  have h10 : rowCount (some "10") = 10 := by
    simp [rowCount, pyParseFloat, pyStripL, pyIsSpace, parseUnsignedDec,
      digitsToNat, pyTrunc, String.toList, Int.floor_eq_iff]
  have hm5 : rowCount (some "-5") = -5 := by
    simp [rowCount, pyParseFloat, pyStripL, pyIsSpace, parseUnsignedDec,
      digitsToNat, pyTrunc, String.toList, Int.floor_eq_iff]
  have e1000 : roundTo 4 (1000 : ℚ) = 1000 :=
    roundTo_eq_self 4 1000 10000000 (by norm_num)
  have em500 : roundTo 4 (-500 : ℚ) = -500 :=
    roundTo_eq_self 4 (-500) (-5000000) (by norm_num)
  refine ⟨?_, ?_, by norm_num, ?_, ?_, by norm_num⟩
  · simp +decide [read_effectifs_csv, eff_step, h1, h10, updAssoc, zeroStats]
  · simp [aggregate, dedupKeys, sortKeys, insertSorted, mkSummary, lookupA,
      zeroStats, DeptSummary.mk.injEq, roundTo_zero]
    norm_num [e1000]
  · simp +decide [read_effectifs_csv, eff_step, h1, hm5, updAssoc, zeroStats]
  · simp [aggregate, dedupKeys, sortKeys, insertSorted, mkSummary, lookupA,
      zeroStats, DeptSummary.mk.injEq, roundTo_zero]
    norm_num [em500]

/-- Claim C1, amended: For every summary produced by the aggregator: each
percentage field is non-negative as soon as the corresponding disease
count is non-negative, and is at most 100 as soon as, in addition, the
population is positive and the count does not exceed it (when the
population is not positive the percentage is exactly 0, hence the bounds
need the count hypotheses the code itself never enforces). -/
theorem C1_percentage_bounds (w : List (String × ℚ))
    (p : List (String × HealthStats)) (dth : List (String × ℕ))
    (s : DeptSummary) (hs : s ∈ aggregate w p dth) :
    (0 ≤ s.nb_cancers → 0 ≤ s.pourcentage_cancer) ∧
    (0 < s.population_totale → s.nb_cancers ≤ s.population_totale →
      s.pourcentage_cancer ≤ 100) ∧
    (0 ≤ s.nb_insuffisance_renale → 0 ≤ s.pourcentage_insuffisance_renale) ∧
    (0 < s.population_totale →
      s.nb_insuffisance_renale ≤ s.population_totale →
      s.pourcentage_insuffisance_renale ≤ 100) ∧
    (0 ≤ s.nb_foie_pancreas → 0 ≤ s.pourcentage_foie_pancreas) ∧
    (0 < s.population_totale → s.nb_foie_pancreas ≤ s.population_totale →
      s.pourcentage_foie_pancreas ≤ 100) := by
  unfold aggregate at hs
  rw [List.mem_map] at hs
  obtain ⟨d, hd, rfl⟩ := hs
  unfold mkSummary
  refine ⟨?_, ?_, ?_, ?_, ?_, ?_⟩
  · exact fun h => pct_nonneg _ _ h
  · exact fun h1 h2 => pct_le_hundred _ _ h1 h2
  · exact fun h => pct_nonneg _ _ h
  · exact fun h1 h2 => pct_le_hundred _ _ h1 h2
  · exact fun h => pct_nonneg _ _ h
  · exact fun h1 h2 => pct_le_hundred _ _ h1 h2

/-- Claim C1, witness: The amended bounds at the concrete health input
`{"01": {pop 100, cancer 10, rein 5, foie 2}}`: the cancer percentage 10
satisfies `0 ≤ 10 ≤ 100`. -/
theorem C1_percentage_bounds_witness : (0 : ℚ) ≤ 10 ∧ (10 : ℚ) ≤ 100 := by
  have hagg : aggregate [] [("01", ⟨100, 10, 5, 2⟩)] [] =
      [⟨"01", 0, 0, 100, 10, 5, 2, 10, 5, 2⟩] := by
    simp [aggregate, dedupKeys, sortKeys, insertSorted, mkSummary, lookupA,
      zeroStats, DeptSummary.mk.injEq, roundTo_zero]
    refine ⟨?_, ?_, ?_⟩
    · exact roundTo_eq_self 4 _ 100000 (by norm_num)
    · exact roundTo_eq_self 4 _ 50000 (by norm_num)
    · exact roundTo_eq_self 4 _ 20000 (by norm_num)
  have hmem : (⟨"01", 0, 0, 100, 10, 5, 2, 10, 5, 2⟩ : DeptSummary) ∈
      aggregate [] [("01", ⟨100, 10, 5, 2⟩)] [] := by
    rw [hagg]
    exact List.mem_singleton.mpr rfl
  have h := C1_percentage_bounds [] [("01", ⟨100, 10, 5, 2⟩)] [] _ hmem
  exact ⟨h.1 (by norm_num), h.2.1 (by norm_num) (by norm_num)⟩

/-- One health-file row leaves the non-negativity of all accumulators
intact as long as its parsed count is non-negative. -/
lemma eff_step_preserves_nonneg {m : List (String × HealthStats)}
    {r : EffRow}
    (hm : ∀ kv ∈ m, 0 ≤ kv.2.pop ∧ 0 ≤ kv.2.cancer ∧ 0 ≤ kv.2.rein ∧
      0 ≤ kv.2.foie)
    (hr : 0 ≤ rowCount r.Ntop) :
    ∀ kv ∈ eff_step m r, 0 ≤ kv.2.pop ∧ 0 ≤ kv.2.cancer ∧ 0 ≤ kv.2.rein ∧
      0 ≤ kv.2.foie := by
  unfold eff_step
  have hz : (0 : ℤ) ≤ zeroStats.pop ∧ (0 : ℤ) ≤ zeroStats.cancer ∧
      (0 : ℤ) ≤ zeroStats.rein ∧ (0 : ℤ) ≤ zeroStats.foie := by
    simp [zeroStats]
  split_ifs
  · exact hm
  · exact hm
  · exact hm
  · exact hm
  · exact updAssoc_forall
      (fun s => 0 ≤ s.pop ∧ 0 ≤ s.cancer ∧ 0 ≤ s.rein ∧ 0 ≤ s.foie) hm hz
      (fun s hs => ⟨add_nonneg hs.1 hr, hs.2.1, hs.2.2.1, hs.2.2.2⟩)
  · exact updAssoc_forall
      (fun s => 0 ≤ s.pop ∧ 0 ≤ s.cancer ∧ 0 ≤ s.rein ∧ 0 ≤ s.foie) hm hz
      (fun s hs => ⟨hs.1, add_nonneg hs.2.1 hr, hs.2.2.1, hs.2.2.2⟩)
  · exact updAssoc_forall
      (fun s => 0 ≤ s.pop ∧ 0 ≤ s.cancer ∧ 0 ≤ s.rein ∧ 0 ≤ s.foie) hm hz
      (fun s hs => ⟨hs.1, hs.2.1, add_nonneg hs.2.2.1 hr, hs.2.2.2⟩)
  · exact updAssoc_forall
      (fun s => 0 ≤ s.pop ∧ 0 ≤ s.cancer ∧ 0 ≤ s.rein ∧ 0 ≤ s.foie) hm hz
      (fun s hs => ⟨hs.1, hs.2.1, hs.2.2.1, add_nonneg hs.2.2.2 hr⟩)
  · exact hm

lemma foldl_eff_step_nonneg (rows : List EffRow)
    (m : List (String × HealthStats))
    (hm : ∀ kv ∈ m, 0 ≤ kv.2.pop ∧ 0 ≤ kv.2.cancer ∧ 0 ≤ kv.2.rein ∧
      0 ≤ kv.2.foie)
    (h : ∀ r ∈ rows, 0 ≤ rowCount r.Ntop) :
    ∀ kv ∈ rows.foldl eff_step m, 0 ≤ kv.2.pop ∧ 0 ≤ kv.2.cancer ∧
      0 ≤ kv.2.rein ∧ 0 ≤ kv.2.foie := by
  induction rows generalizing m with
  | nil => simpa using hm
  | cons r t ih =>
      rw [List.foldl_cons]
      exact ih _
        (eff_step_preserves_nonneg hm (h r (by simp)))
        (fun r2 hr2 => h r2 (List.mem_cons_of_mem _ hr2))

/-- Claim C4, counterexample: The health-reader counters are *not*
non-negative for every input file: a single filter-passing `"Cancers"`
row with `Ntop = "-5"` leaves department `"01"` with a cancer counter of
`-5 < 0` (the code adds the parsed count, whatever its sign). -/
theorem C4_counterexample :
    read_effectifs_csv [⟨some "2023", some "Tous sexes", some "Tous âges",
      some "01", some "Cancers", some "-5"⟩] = [("01", ⟨0, -5, 0, 0⟩)] ∧
    ¬ (0 ≤ (-5 : ℤ)) := by
  have hm5 : rowCount (some "-5") = -5 := by
    simp [rowCount, pyParseFloat, pyStripL, pyIsSpace, parseUnsignedDec,
      digitsToNat, pyTrunc, String.toList, Int.floor_eq_iff]
  constructor
  · simp +decide [read_effectifs_csv, eff_step, hm5, updAssoc, zeroStats]
  · norm_num

/-- Claim C4, amended: The four per-department counters are zero-initialised
on first reference and only incremented by parsed counts, so whenever
the parsed count of every row is non-negative (as with well-formed prevalence
data) every counter in the returned mapping is non-negative. -/
theorem C4_counters_nonneg (rows : List EffRow)
    (h : ∀ r ∈ rows, 0 ≤ rowCount r.Ntop) :
    ∀ kv ∈ read_effectifs_csv rows, 0 ≤ kv.2.pop ∧ 0 ≤ kv.2.cancer ∧
      0 ≤ kv.2.rein ∧ 0 ≤ kv.2.foie := by
  unfold read_effectifs_csv
  exact foldl_eff_step_nonneg rows [] (by simp) h

/-- Claim C4, witness: The amended invariant at the concrete one-row input
whose `"Cancers"` count is `"5"`. -/
theorem C4_counters_nonneg_witness :
    (0 : ℤ) ≤ 0 ∧ (0 : ℤ) ≤ 5 ∧ (0 : ℤ) ≤ 0 ∧ (0 : ℤ) ≤ 0 := by
  have h5 : rowCount (some "5") = 5 := by
    simp [rowCount, pyParseFloat, pyStripL, pyIsSpace, parseUnsignedDec,
      digitsToNat, pyTrunc, String.toList, Int.floor_eq_iff]
  have hrows : ∀ r ∈ [(⟨some "2023", some "Tous sexes", some "Tous âges",
      some "01", some "Cancers", some "5"⟩ : EffRow)],
      0 ≤ rowCount r.Ntop := by
    intro r hr
    rcases List.mem_singleton.mp hr with rfl
    rw [show (⟨some "2023", some "Tous sexes", some "Tous âges", some "01",
      some "Cancers", some "5"⟩ : EffRow).Ntop = some "5" from rfl, h5]
    norm_num
  have hmem : (("01", (⟨0, 5, 0, 0⟩ : HealthStats)) : String × HealthStats) ∈
      read_effectifs_csv [⟨some "2023", some "Tous sexes", some "Tous âges",
        some "01", some "Cancers", some "5"⟩] := by
    have heval : read_effectifs_csv [⟨some "2023", some "Tous sexes",
        some "Tous âges", some "01", some "Cancers", some "5"⟩] =
        [("01", ⟨0, 5, 0, 0⟩)] := by
      simp +decide [read_effectifs_csv, eff_step, h5, updAssoc, zeroStats]
    rw [heval]
    exact List.mem_singleton.mpr rfl
  exact C4_counters_nonneg _ hrows _ hmem

end Main
